import Mathlib

/-
  A shallow embedding of the fuse-cpp-ramfs inode table and VFS dispatcher
  (src/fuse_cpp_ramfs.cpp), together with theorems about the behaviour of
  its callbacks.  Each callback definition is translated line by line from
  the C++ source; helper members of the Inode / Directory classes whose
  bodies are not part of the dispatcher translation unit are modelled from
  the specification and carry a doc comment saying so.

  Machine integers: inode numbers, link counts and lookup counts are
  modelled as Nat (the C++ types are unsigned; subtraction sites are noted
  where wraparound could matter).  The statvfs free counters are modelled
  as Int, since the C++ code adds signed deltas to them.
-/

namespace RamFs

/-! ### Error codes (Linux values; only their distinctness matters) -/

def ENOENT : Nat := 2
def EEXIST : Nat := 17
def ENOTDIR : Nat := 20
def EISDIR : Nat := 21
def EINVAL : Nat := 22
def ENOTEMPTY : Nat := 39

/-! ### File-type mode bits -/

def S_IFDIR : Nat := 0x4000
def S_IFREG : Nat := 0x8000
def S_IFLNK : Nat := 0xA000

/-- The variant tag of an inode: the C++ code distinguishes the classes
File, Directory, SymLink and SpecialInode via dynamic_cast; we carry an
explicit tag. -/
inductive InodeKind
  | file
  | directory
  | symlink
  | special
deriving DecidableEq

/-- One inode: the attribute fields used by the dispatcher, the kernel
lookup count, and the variant-specific state (children map for
directories, target path for symlinks).  Timestamps and extended
attributes are not modelled; no claim concerns them. -/
structure Inode where
  kind : InodeKind
  mode : Nat
  uid : Nat
  gid : Nat
  nlink : Nat
  nlookup : Nat
  usedBlocks : Nat
  size : Nat
  children : List (String × Nat)
  target : String
deriving DecidableEq

/-- Modelled from the spec (inode.hpp is not under src/):
`HasNoLinks` tests whether the hard-link count is zero. -/
def Inode.hasNoLinks (nd : Inode) : Bool := nd.nlink == 0

/-! ### Directory children (std::map<string, fuse_ino_t>) as an
association list.  The Directory class bodies are not under src/; these
operations are modelled from the spec, section 4.2. -/

/-- Modelled from the spec: `ChildNumber(name)` is a map lookup returning
the bound inode number, or the NotFound sentinel (here: `none`). -/
def childInodeNumberWithName (children : List (String × Nat)) (name : String) : Option Nat :=
  match children with
  | [] => none
  | (n, i) :: rest => if n = name then some i else childInodeNumberWithName rest name

/-- Modelled from the spec: `AddChild(name, number)` inserts; the caller
ensures the name is absent, and rebinding is reserved to `UpdateChild`,
so an insert on a present name leaves the mapping unchanged
(std::map insert semantics). -/
def addChild (children : List (String × Nat)) (name : String) (ino : Nat) :
    List (String × Nat) :=
  match childInodeNumberWithName children name with
  | some _ => children
  | none => children ++ [(name, ino)]

/-- Modelled from the spec: `UpdateChild(name, number)` rebinds an
existing name or inserts. -/
def updateChild (children : List (String × Nat)) (name : String) (ino : Nat) :
    List (String × Nat) :=
  match children with
  | [] => [(name, ino)]
  | (n, i) :: rest =>
    if n = name then (n, ino) :: rest else (n, i) :: updateChild rest name ino

/-- Modelled from the spec: `RemoveChild(name)` removes the name from the
mapping. -/
def removeChild (children : List (String × Nat)) (name : String) :
    List (String × Nat) :=
  match children with
  | [] => []
  | (n, i) :: rest => if n = name then rest else (n, i) :: removeChild rest name

/-! ### The filesystem state -/

/-- The process-wide state of FuseRamFs: the inode table (`Inodes`, a
vector of pointers where a null pointer is a tombstone), the FIFO queue
of reclaimable slots (`DeletedInodes`), and the statvfs free counters
(the remaining statvfs fields are constants). -/
structure FS where
  inodes : List (Option Inode)
  deletedInodes : List Nat
  bfree : Int
  bavail : Int
  ffree : Int
  favail : Int
deriving DecidableEq

/-- Modelled from the spec (fuse_cpp_ramfs.hpp is not under src/):
`UpdateUsedBlocks(d)` debits the free-block counters by the signed
delta `d` (invariant 6: free counters equal totals minus live usage). -/
def updateUsedBlocks (fs : FS) (d : Int) : FS :=
  { fs with bfree := fs.bfree - d, bavail := fs.bavail - d }

/-- Modelled from the spec (fuse_cpp_ramfs.hpp is not under src/):
`UpdateUsedInodes(d)` debits the free-inode counters by the signed
delta `d`. -/
def updateUsedInodes (fs : FS) (d : Int) : FS :=
  { fs with ffree := fs.ffree - d, favail := fs.favail - d }

/-- A reply sent through the request handle.  `errReply 0` is the
success reply `fuse_reply_err(req, 0)`. -/
inductive Reply
  | errReply (code : Nat)
  | entryReply (ino : Nat)
  | attrReply (ino : Nat)
  | openReply
  | createReply (ino : Nat)
deriving DecidableEq

/-- The outcome of one callback: the new state, the list of replies sent
(in order), and whether the callback indexed the inode table out of
bounds (undefined behaviour in the C++). -/
structure CbOut where
  fs : FS
  replies : List Reply
  oob : Bool
deriving DecidableEq

def errOut (fs : FS) (code : Nat) : CbOut :=
  { fs := fs, replies := [Reply.errReply code], oob := false }

/-- `Inodes[ino]` where the index is already known to be in range:
`some (pointer)` when in range, `none` marks an out-of-bounds access. -/
def getSlot (fs : FS) (ino : Nat) : Option (Option Inode) := fs.inodes.get? ino

def setSlot (fs : FS) (ino : Nat) (v : Option Inode) : FS :=
  { fs with inodes := fs.inodes.set ino v }

/-- Mutate the inode object stored at a live slot (pointer-style update). -/
def modifyInode (fs : FS) (ino : Nat) (f : Inode → Inode) : FS :=
  match fs.inodes.get? ino with
  | some (some nd) => setSlot fs ino (some (f nd))
  | _ => fs

/-- The inode object at a slot, when the slot is in range and live. -/
def inodeAt (fs : FS) (ino : Nat) : Option Inode :=
  match fs.inodes.get? ino with
  | some (some nd) => some nd
  | _ => none

/-- The liveness guard repeated at the top of the callbacks:
`ino < Inodes.size() ∧ Inodes[ino] ≠ nullptr ∧ ¬HasNoLinks` (this is the
spec's `Resolve`). -/
def resolveLive (fs : FS) (ino : Nat) : Option Inode :=
  match fs.inodes.get? ino with
  | some (some nd) => if 1 ≤ nd.nlink then some nd else none
  | _ => none

/-! ### The setattr request (the subset of struct stat the spec assigns
through the to_set bitmask; timestamps are not modelled). -/

structure SetAttrReq where
  mode : Nat
  uid : Nat
  gid : Nat
  size : Nat
deriving DecidableEq

def FUSE_SET_ATTR_MODE : Nat := 1
def FUSE_SET_ATTR_UID : Nat := 2
def FUSE_SET_ATTR_GID : Nat := 4
def FUSE_SET_ATTR_SIZE : Nat := 8

def kBlockSize : Nat := 4096

/-- Modelled from the spec (inode.cpp is not under src/):
`ReplySetAttr` applies the fields selected by the bitmask; a size change
re-derives `UsedBlocks = ceil(size / blocksize)` (spec section 4.3). -/
def applySetAttr (nd : Inode) (attr : SetAttrReq) (toSet : Nat) : Inode :=
  let nd1 := if toSet &&& FUSE_SET_ATTR_MODE ≠ 0 then { nd with mode := attr.mode } else nd
  let nd2 := if toSet &&& FUSE_SET_ATTR_UID ≠ 0 then { nd1 with uid := attr.uid } else nd1
  let nd3 := if toSet &&& FUSE_SET_ATTR_GID ≠ 0 then { nd2 with gid := attr.gid } else nd2
  if toSet &&& FUSE_SET_ATTR_SIZE ≠ 0 then
    { nd3 with size := attr.size, usedBlocks := (attr.size + kBlockSize - 1) / kBlockSize }
  else nd3

/-! ### The VFS callbacks, translated from src/fuse_cpp_ramfs.cpp. -/

/-- `FuseRamFs::FuseGetAttr` (fuse_cpp_ramfs.cpp lines 224-240).  Note:
the `ino >= Inodes.size()` branch replies ENOENT but does not return, so
execution continues into `Inodes[ino]`, an out-of-bounds access. -/
def FuseGetAttr (fs : FS) (ino : Nat) : CbOut :=
  let pre : List Reply :=
    if fs.inodes.length ≤ ino then [Reply.errReply ENOENT] else []
  match fs.inodes.get? ino with
  | none => { fs := fs, replies := pre, oob := true }
  | some none => { fs := fs, replies := pre ++ [Reply.errReply ENOENT], oob := false }
  | some (some nd) =>
    if nd.nlink = 0 then { fs := fs, replies := pre ++ [Reply.errReply ENOENT], oob := false }
    else { fs := fs, replies := pre ++ [Reply.attrReply ino], oob := false }

/-- `FuseRamFs::FuseSetAttr` (fuse_cpp_ramfs.cpp lines 252-268).  The
same missing return after the ENOENT reply as in FuseGetAttr. -/
def FuseSetAttr (fs : FS) (ino : Nat) (attr : SetAttrReq) (toSet : Nat) : CbOut :=
  let pre : List Reply :=
    if fs.inodes.length ≤ ino then [Reply.errReply ENOENT] else []
  match fs.inodes.get? ino with
  | none => { fs := fs, replies := pre, oob := true }
  | some none => { fs := fs, replies := pre ++ [Reply.errReply ENOENT], oob := false }
  | some (some nd) =>
    if nd.nlink = 0 then { fs := fs, replies := pre ++ [Reply.errReply ENOENT], oob := false }
    else
      { fs := setSlot fs ino (some (applySetAttr nd attr toSet)),
        replies := pre ++ [Reply.attrReply ino], oob := false }

/-- `FuseRamFs::FuseLookup` (fuse_cpp_ramfs.cpp lines 184-214).  The
parent is bounds-checked but not liveness-checked (a tombstoned parent
fails the Directory cast, giving ENOTDIR); the child is both
null-checked and link-checked.  A successful lookup sends an entry
reply, which bumps the child's lookup count. -/
def FuseLookup (fs : FS) (parent : Nat) (name : String) : CbOut :=
  if fs.inodes.length ≤ parent then errOut fs ENOENT else
  match fs.inodes.get? parent with
  | none => { fs := fs, replies := [], oob := true }
  | some none => errOut fs ENOTDIR
  | some (some p) =>
    if p.kind ≠ InodeKind.directory then errOut fs ENOTDIR
    else
      match childInodeNumberWithName p.children name with
      | none => errOut fs ENOENT
      | some ino =>
        match fs.inodes.get? ino with
        | none => { fs := fs, replies := [], oob := true }
        | some none => errOut fs ENOENT
        | some (some child) =>
          if child.nlink = 0 then errOut fs ENOENT
          else
            { fs := modifyInode fs ino (fun nd => { nd with nlookup := nd.nlookup + 1 }),
              replies := [Reply.entryReply ino], oob := false }

/-- `FuseRamFs::FuseOpen` (fuse_cpp_ramfs.cpp lines 467-498). -/
def FuseOpen (fs : FS) (ino : Nat) : CbOut :=
  if fs.inodes.length ≤ ino then errOut fs ENOENT else
  match fs.inodes.get? ino with
  | none => { fs := fs, replies := [], oob := true }
  | some none => errOut fs ENOENT
  | some (some nd) =>
    if nd.nlink = 0 then errOut fs ENOENT
    else if nd.kind = InodeKind.directory then errOut fs EISDIR
    else { fs := fs, replies := [Reply.openReply], oob := false }

/-- `FuseRamFs::FuseRelease` (fuse_cpp_ramfs.cpp lines 500-527). -/
def FuseRelease (fs : FS) (ino : Nat) : CbOut :=
  if fs.inodes.length ≤ ino then errOut fs ENOENT else
  match fs.inodes.get? ino with
  | none => { fs := fs, replies := [], oob := true }
  | some none => errOut fs ENOENT
  | some (some nd) =>
    if nd.nlink = 0 then errOut fs ENOENT
    else if nd.kind = InodeKind.directory then errOut fs EISDIR
    else errOut fs 0

/-- `FuseRamFs::FuseFlush` (fuse_cpp_ramfs.cpp lines 861-874).  The
inode fetch is commented out in the source: only the bounds check runs,
then the success reply. -/
def FuseFlush (fs : FS) (ino : Nat) : CbOut :=
  if fs.inodes.length ≤ ino then errOut fs ENOENT
  else errOut fs 0

/-- `FuseRamFs::FuseFsync` (fuse_cpp_ramfs.cpp lines 529-538).  Only a
bounds check, then the success reply. -/
def FuseFsync (fs : FS) (ino : Nat) : CbOut :=
  if fs.inodes.length ≤ ino then errOut fs ENOENT
  else errOut fs 0

/-- `FuseRamFs::FuseGetLock` (fuse_cpp_ramfs.cpp lines 1257-1269).  Only
a bounds check; the lock reply is commented out, so an in-range inode
gets no reply at all. -/
def FuseGetLock (fs : FS) (ino : Nat) : CbOut :=
  if fs.inodes.length ≤ ino then errOut fs ENOENT
  else { fs := fs, replies := [], oob := false }

/-- `FuseRamFs::FuseRename` (fuse_cpp_ramfs.cpp lines 899-973).  After
all checks pass: if `newname` already exists in the new parent the code
fetches `Inodes[parent]` (the source parent, not the existing target)
and removes a hard link from it; then the new name is bound to the
source inode with UpdateChild, and the old name is not removed but
rebound to inode number 0 ("mark the old name as unused"). -/
def FuseRename (fs : FS) (parent : Nat) (name : String) (newparent : Nat)
    (newname : String) : CbOut :=
  if fs.inodes.length ≤ parent then errOut fs ENOENT else
  match fs.inodes.get? parent with
  | none => { fs := fs, replies := [], oob := true }
  | some none => errOut fs ENOENT
  | some (some p) =>
    if p.nlink = 0 then errOut fs ENOENT
    else if p.kind ≠ InodeKind.directory then errOut fs ENOTDIR
    else
      match childInodeNumberWithName p.children name with
      | none => errOut fs ENOENT
      | some ino =>
        if fs.inodes.length ≤ newparent then errOut fs ENOENT else
        match fs.inodes.get? newparent with
        | none => { fs := fs, replies := [], oob := true }
        | some none => errOut fs ENOENT
        | some (some np) =>
          if np.nlink = 0 then errOut fs ENOENT
          else if np.kind ≠ InodeKind.directory then errOut fs ENOTDIR
          else
            let existing := childInodeNumberWithName np.children newname
            let fs1 :=
              match existing with
              | some _ =>
                modifyInode fs parent (fun nd => { nd with nlink := nd.nlink - 1 })
              | none => fs
            let fs2 := modifyInode fs1 newparent
              (fun nd => { nd with children := updateChild nd.children newname ino })
            let fs3 := modifyInode fs2 parent
              (fun nd => { nd with children := updateChild nd.children name 0 })
            { fs := fs3, replies := [Reply.errReply 0], oob := false }

/-- `FuseRamFs::FuseLink` (fuse_cpp_ramfs.cpp lines 975-1027).  When the
new name is already bound to a positive inode number the code replies
EEXIST but does not return: it still adds the child entry, increments
the target's hard-link count, and sends the entry reply (which also
bumps the target's lookup count). -/
def FuseLink (fs : FS) (ino : Nat) (newparent : Nat) (newname : String) : CbOut :=
  if fs.inodes.length ≤ newparent then errOut fs ENOENT else
  match fs.inodes.get? newparent with
  | none => { fs := fs, replies := [], oob := true }
  | some none => errOut fs ENOENT
  | some (some np) =>
    if np.nlink = 0 then errOut fs ENOENT
    else if np.kind ≠ InodeKind.directory then errOut fs ENOTDIR
    else if fs.inodes.length ≤ ino then errOut fs ENOENT else
    match fs.inodes.get? ino with
    | none => { fs := fs, replies := [], oob := true }
    | some none => errOut fs ENOENT
    | some (some nd) =>
      if nd.nlink = 0 then errOut fs ENOENT
      else
        let pre : List Reply :=
          match childInodeNumberWithName np.children newname with
          | some e => if 0 < e then [Reply.errReply EEXIST] else []
          | none => []
        let fs1 := modifyInode fs newparent
          (fun d => { d with children := addChild d.children newname ino })
        let fs2 := modifyInode fs1 ino
          (fun t => { t with nlink := t.nlink + 1, nlookup := t.nlookup + 1 })
        { fs := fs2, replies := pre ++ [Reply.entryReply ino], oob := false }

/-- `FuseRamFs::FuseRmdir` (fuse_cpp_ramfs.cpp lines 724-798).  All
checks (parent resolves as live directory, child name exists, child is
not the parent itself, child is a live directory, child has at most the
two entries `.` and `..`) precede every mutation; on success the parent
loses the entry and one hard link, and the child's link count is driven
to zero by the while loop. -/
def FuseRmdir (fs : FS) (parent : Nat) (name : String) : CbOut :=
  if fs.inodes.length ≤ parent then errOut fs ENOENT else
  match fs.inodes.get? parent with
  | none => { fs := fs, replies := [], oob := true }
  | some none => errOut fs ENOENT
  | some (some p) =>
    if p.nlink = 0 then errOut fs ENOENT
    else if p.kind ≠ InodeKind.directory then errOut fs ENOTDIR
    else
      match childInodeNumberWithName p.children name with
      | none => errOut fs ENOENT
      | some ino =>
        if ino = parent then errOut fs EINVAL
        else
          match fs.inodes.get? ino with
          | none => { fs := fs, replies := [], oob := true }
          | some none => errOut fs ENOENT
          | some (some c) =>
            if c.nlink = 0 then errOut fs ENOENT
            else if c.kind ≠ InodeKind.directory then errOut fs ENOTDIR
            else if 2 < c.children.length then errOut fs ENOTEMPTY
            else
              let fs1 := modifyInode fs parent
                (fun d => { d with children := removeChild d.children name,
                                   nlink := d.nlink - 1 })
              let fs2 := modifyInode fs1 ino (fun d => { d with nlink := 0 })
              { fs := fs2, replies := [Reply.errReply 0], oob := false }

/-- `FuseRamFs::FuseForget` (fuse_cpp_ramfs.cpp lines 800-834).  The
table is indexed without a bounds check.  The lookup count is lowered by
`n` (`Inode::Forget`, modelled from the spec: decrement by exactly n;
the C++ counter is unsigned).  When both counts are zero the slot is
tombstoned, the slot number is pushed onto DeletedInodes, and the code
calls `UpdateUsedInodes(-blocks_freed)` — the free-inode counters are
credited with the freed block count and the free-block counters are not
touched.  Forget sends no reply. -/
def FuseForget (fs : FS) (ino : Nat) (n : Nat) : CbOut :=
  match fs.inodes.get? ino with
  | none => { fs := fs, replies := [], oob := true }
  | some none => { fs := fs, replies := [], oob := false }
  | some (some nd) =>
    let nd1 : Inode := { nd with nlookup := nd.nlookup - n }
    if nd1.nlookup = 0 ∧ nd1.nlink = 0 then
      let blocksFreed : Nat := nd1.usedBlocks
      let fs1 := setSlot fs ino none
      let fs2 := updateUsedInodes fs1 (-(blocksFreed : Int))
      let fs3 : FS := { fs2 with deletedInodes := fs2.deletedInodes ++ [ino] }
      { fs := fs3, replies := [], oob := false }
    else
      { fs := setSlot fs ino (some nd1), replies := [], oob := false }

/-- Modelled from the spec (inode.cpp is not under src/):
`Inode::Initialize(ino, mode, nlink, gid, uid)` sets the attributes from
the arguments and a zero lookup count (spec section 3, Lifecycle;
timestamps are not modelled). -/
def initializeInode (nd : Inode) (mode nlink gid uid : Nat) : Inode :=
  { nd with mode := mode, nlink := nlink, gid := gid, uid := uid, nlookup := 0 }

/-- `FuseRamFs::RegisterInode` (fuse_cpp_ramfs.cpp lines 1271-1289).
With an empty DeletedInodes queue the inode is appended and numbered
with the previous table length, and `UpdateUsedInodes(1)` runs; with a
non-empty queue the head slot is popped and reused and the used-inode
counter is left alone.  Both branches then initialize the inode and run
`UpdateUsedBlocks(UsedBlocks())`. -/
def RegisterInode (fs : FS) (nd : Inode) (mode nlink gid uid : Nat) : FS × Nat :=
  let nd0 := initializeInode nd mode nlink gid uid
  match fs.deletedInodes with
  | [] =>
    let ino := fs.inodes.length
    let fs1 : FS := { fs with inodes := fs.inodes ++ [some nd0] }
    let fs2 := updateUsedInodes fs1 1
    (updateUsedBlocks fs2 (nd0.usedBlocks : Int), ino)
  | d :: rest =>
    let fs1 : FS := { fs with inodes := fs.inodes.set d (some nd0),
                              deletedInodes := rest }
    (updateUsedBlocks fs1 (nd0.usedBlocks : Int), d)

/-- Modelled from the spec (symlink.cpp is not under src/): a freshly
constructed SymLink stores the target path; its size is the target
length (spec section 4.1). -/
def newSymLink (link : String) : Inode :=
  { kind := InodeKind.symlink, mode := 0, uid := 0, gid := 0, nlink := 0,
    nlookup := 0, usedBlocks := 0, size := link.length, children := [],
    target := link }

/-- `FuseRamFs::FuseSymlink` (fuse_cpp_ramfs.cpp lines 1029-1065).  The
new SymLink is registered with mode `S_IFLNK | 0755` and nlink 1, owned
by the requesting caller; the name is added to the parent and the entry
reply bumps the new inode's lookup count. -/
def FuseSymlink (fs : FS) (link : String) (parent : Nat) (name : String)
    (ctxUid ctxGid : Nat) : CbOut :=
  if fs.inodes.length ≤ parent then errOut fs ENOENT else
  match fs.inodes.get? parent with
  | none => { fs := fs, replies := [], oob := true }
  | some none => errOut fs ENOENT
  | some (some p) =>
    if p.nlink = 0 then errOut fs ENOENT
    else if p.kind ≠ InodeKind.directory then errOut fs ENOTDIR
    else
      let reg := RegisterInode fs (newSymLink link) (S_IFLNK ||| 0o755) 1 ctxGid ctxUid
      let fs1 := reg.1
      let ino := reg.2
      let fs2 := modifyInode fs1 parent
        (fun d => { d with children := addChild d.children name ino })
      let fs3 := modifyInode fs2 ino
        (fun nd => { nd with nlookup := nd.nlookup + 1 })
      { fs := fs3, replies := [Reply.entryReply ino], oob := false }

/-! ### Observation helpers -/

/-- The hard-link count of the inode at a slot, when live. -/
def nlinkAt (fs : FS) (ino : Nat) : Option Nat :=
  (inodeAt fs ino).map Inode.nlink

/-- The number bound to `name` in the children of the directory at a
slot, when live. -/
def childAt (fs : FS) (ino : Nat) (name : String) : Option Nat :=
  match inodeAt fs ino with
  | some nd => childInodeNumberWithName nd.children name
  | none => none

/-! ### Concrete states used by the closed theorems and witnesses.
Slot 0 is the reserved SpecialInode (registered with nlink 0), slot 1
the root directory, as built by FuseInit. -/

/-- The SpecialInode registered at slot 0 by FuseInit
(`RegisterInode(inode_p, 0, 0, gid, uid)`: mode 0, nlink 0). -/
def specialInode0 : Inode :=
  { kind := InodeKind.special, mode := 0, uid := 0, gid := 0, nlink := 0,
    nlookup := 0, usedBlocks := 0, size := 0, children := [], target := "" }

def mkDirNode (nlink : Nat) (children : List (String × Nat)) : Inode :=
  { kind := InodeKind.directory, mode := S_IFDIR ||| 0o777, uid := 0, gid := 0,
    nlink := nlink, nlookup := 1, usedBlocks := 1, size := 0,
    children := children, target := "" }

def mkFileNode (nlink nlookup usedBlocks : Nat) : Inode :=
  { kind := InodeKind.file, mode := S_IFREG ||| 0o644, uid := 0, gid := 0,
    nlink := nlink, nlookup := nlookup, usedBlocks := usedBlocks,
    size := usedBlocks * kBlockSize, children := [], target := "" }

/-- Root with two files `a` (inode 2) and `b` (inode 3): the state after
`create(1,"a")`, `create(1,"b")` in scenario C of the spec. -/
def fsTwoFiles : FS :=
  { inodes := [some specialInode0,
               some (mkDirNode 3 [(".", 1), ("..", 1), ("a", 2), ("b", 3)]),
               some (mkFileNode 1 1 1),
               some (mkFileNode 1 1 1)],
    deletedInodes := [], bfree := 100, bavail := 100, ffree := 50, favail := 50 }

/-- Root with a single file `b` (inode 2). -/
def fsOneFile : FS :=
  { inodes := [some specialInode0,
               some (mkDirNode 3 [(".", 1), ("..", 1), ("b", 2)]),
               some (mkFileNode 1 1 1)],
    deletedInodes := [], bfree := 100, bavail := 100, ffree := 50, favail := 50 }

/-- Root plus an unlinked-but-still-looked-up file at slot 2
(nlink 0, nlookup 1, 5 used blocks): the state after unlinking an open
file, scenario B of the spec. -/
def fsUnlinkedFile : FS :=
  { inodes := [some specialInode0,
               some (mkDirNode 3 [(".", 1), ("..", 1)]),
               some (mkFileNode 0 1 5)],
    deletedInodes := [], bfree := 100, bavail := 100, ffree := 50, favail := 50 }

/-- Root with an empty subdirectory shell only. -/
def fsRootOnly : FS :=
  { inodes := [some specialInode0,
               some (mkDirNode 3 [(".", 1), ("..", 1)])],
    deletedInodes := [], bfree := 100, bavail := 100, ffree := 50, favail := 50 }

/-- Root with a non-empty subdirectory `d` (inode 2) holding file `x`
(inode 3): scenario D of the spec. -/
def fsNonEmptyDir : FS :=
  { inodes := [some specialInode0,
               some (mkDirNode 3 [(".", 1), ("..", 1), ("d", 2)]),
               some (mkDirNode 3 [(".", 2), ("..", 1), ("x", 3)]),
               some (mkFileNode 1 1 0)],
    deletedInodes := [], bfree := 100, bavail := 100, ffree := 50, favail := 50 }

/-! ### List helper lemmas -/

theorem list_get?_none {α : Type} :
    ∀ (l : List α) (i : Nat), l.length ≤ i → l.get? i = none := by
  intro l
  induction l with
  | nil => intro i _; cases i <;> rfl
  | cons a t ih =>
    intro i h
    cases i with
    | zero => exact absurd h (by simp)
    | succ j => exact ih j (Nat.le_of_succ_le_succ h)

theorem list_lt_of_get?_some {α : Type} {l : List α} {i : Nat} {a : α}
    (h : l.get? i = some a) : i < l.length := by
  by_contra hc
  rw [list_get?_none l i (Nat.le_of_not_lt hc)] at h
  exact Option.noConfusion h

theorem list_get?_set_self {α : Type} :
    ∀ (l : List α) (i : Nat) (v : α), i < l.length → (l.set i v).get? i = some v := by
  intro l
  induction l with
  | nil => intro i v h; exact absurd h (by simp)
  | cons a t ih =>
    intro i v h
    cases i with
    | zero => rfl
    | succ j => exact ih j v (Nat.lt_of_succ_lt_succ h)

theorem list_get?_set_ne {α : Type} :
    ∀ (l : List α) (i j : Nat) (v : α), i ≠ j → (l.set i v).get? j = l.get? j := by
  intro l
  induction l with
  | nil => intro i j v _; cases i <;> rfl
  | cons a t ih =>
    intro i j v hij
    cases i with
    | zero =>
      cases j with
      | zero => exact absurd rfl hij
      | succ k => rfl
    | succ m =>
      cases j with
      | zero => rfl
      | succ k => exact ih m k v (fun he => hij (by rw [he]))

theorem list_length_set {α : Type} :
    ∀ (l : List α) (i : Nat) (v : α), (l.set i v).length = l.length := by
  intro l
  induction l with
  | nil => intro i v; cases i <;> rfl
  | cons a t ih =>
    intro i v
    cases i with
    | zero => rfl
    | succ j => simp [ih j v]

theorem list_get?_append_length {α : Type} :
    ∀ (l : List α) (v : α), (l ++ [v]).get? l.length = some v := by
  intro l v
  induction l with
  | nil => rfl
  | cons a t ih => simp [ih]

theorem list_get?_append_lt {α : Type} :
    ∀ (l : List α) (v : α) (j : Nat), j < l.length → (l ++ [v]).get? j = l.get? j := by
  intro l
  induction l with
  | nil => intro v j h; exact absurd h (by simp)
  | cons a t ih =>
    intro v j h
    cases j with
    | zero => rfl
    | succ k => exact ih v k (Nat.lt_of_succ_lt_succ h)

/-! The same facts phrased with `l[i]?`, the simp normal form. -/

theorem list_getElem?_none {α : Type} (l : List α) (i : Nat) (h : l.length ≤ i) :
    l[i]? = none := by
  have hx := list_get?_none l i h
  simpa [List.get?_eq_getElem?] using hx

theorem list_lt_of_getElem?_some {α : Type} {l : List α} {i : Nat} {a : α}
    (h : l[i]? = some a) : i < l.length :=
  list_lt_of_get?_some (by simpa [List.get?_eq_getElem?] using h)

theorem list_getElem?_set_self {α : Type} (l : List α) (i : Nat) (v : α)
    (h : i < l.length) : (l.set i v)[i]? = some v := by
  have hx := list_get?_set_self l i v h
  simpa [List.get?_eq_getElem?] using hx

theorem list_getElem?_set_ne {α : Type} (l : List α) (i j : Nat) (v : α)
    (h : i ≠ j) : (l.set i v)[j]? = l[j]? := by
  have hx := list_get?_set_ne l i j v h
  simpa [List.get?_eq_getElem?] using hx

theorem list_getElem?_append_length {α : Type} (l : List α) (v : α) :
    (l ++ [v])[l.length]? = some v := by
  have hx := list_get?_append_length l v
  rw [List.get?_eq_getElem?] at hx
  exact hx

theorem list_getElem?_append_lt {α : Type} (l : List α) (v : α) (j : Nat)
    (h : j < l.length) : (l ++ [v])[j]? = l[j]? := by
  have hx := list_get?_append_lt l v j h
  simpa [List.get?_eq_getElem?] using hx

/-! ### modifyInode and updateChild lemmas -/

theorem modifyInode_get? (fs : FS) (i j : Nat) (f : Inode → Inode) :
    (modifyInode fs i f).inodes.get? j =
      if i = j then (fs.inodes.get? j).map (Option.map f) else fs.inodes.get? j := by
  unfold modifyInode
  cases hi : fs.inodes.get? i with
  | none =>
    by_cases hij : i = j
    · subst hij; rw [if_pos rfl, hi]; rfl
    · rw [if_neg hij]
  | some o =>
    cases o with
    | none =>
      by_cases hij : i = j
      · subst hij; rw [if_pos rfl, hi]; rfl
      · rw [if_neg hij]
    | some nd =>
      by_cases hij : i = j
      · subst hij
        simp only [hi, setSlot, if_pos rfl, Option.map_some]
        exact list_get?_set_self _ _ _ (list_lt_of_get?_some hi)
      · simp only [hi, setSlot, if_neg hij]
        exact list_get?_set_ne _ _ _ _ hij

theorem modifyInode_getElem? (fs : FS) (i j : Nat) (f : Inode → Inode) :
    (modifyInode fs i f).inodes[j]? =
      if i = j then (fs.inodes[j]?).map (Option.map f) else fs.inodes[j]? := by
  have hx := modifyInode_get? fs i j f
  simpa [List.get?_eq_getElem?] using hx

theorem modifyInode_slot_self (fs : FS) (i : Nat) (f : Inode → Inode) (q : Inode)
    (h : fs.inodes[i]? = some (some q)) :
    (modifyInode fs i f).inodes[i]? = some (some (f q)) := by
  rw [modifyInode_getElem?, if_pos rfl, h]
  rfl

theorem modifyInode_slot_other (fs : FS) (i j : Nat) (f : Inode → Inode)
    (h : ¬ i = j) :
    (modifyInode fs i f).inodes[j]? = fs.inodes[j]? := by
  rw [modifyInode_getElem?, if_neg h]

theorem modifyInode_length (fs : FS) (i : Nat) (f : Inode → Inode) :
    (modifyInode fs i f).inodes.length = fs.inodes.length := by
  unfold modifyInode
  cases hi : fs.inodes.get? i with
  | none => rfl
  | some o =>
    cases o with
    | none => rfl
    | some nd => simp [setSlot, list_length_set fs.inodes i (some (f nd))]

theorem childInodeNumberWithName_updateChild (l : List (String × Nat))
    (name : String) (v : Nat) :
    childInodeNumberWithName (updateChild l name v) name = some v := by
  induction l with
  | nil => simp [updateChild, childInodeNumberWithName]
  | cons a t ih =>
    by_cases h : a.1 = name
    · simp [updateChild, childInodeNumberWithName, h]
    · simp [updateChild, childInodeNumberWithName, h, ih]

/-! ### Claim theorems -/

/-- Claim C1 (code_bug): a rename that overwrites an existing target is
claimed to decrement the target inode's hard-link count to zero.  The
code instead fetches `Inodes[parent]` and decrements the source parent's
link count: in the scenario create a, create b, rename a over b, the
rename succeeds, the overwritten inode 3 keeps nlink 1 (not 0), and the
root directory's nlink drops from 3 to 2. -/
theorem C1_rename_overwrite_decrements_parent_not_target :
    (FuseRename fsTwoFiles 1 "a" 1 "b").replies = [Reply.errReply 0] ∧
    nlinkAt fsTwoFiles 3 = some 1 ∧
    nlinkAt fsTwoFiles 1 = some 3 ∧
    nlinkAt (FuseRename fsTwoFiles 1 "a" 1 "b").fs 3 = some 1 ∧
    nlinkAt (FuseRename fsTwoFiles 1 "a" 1 "b").fs 1 = some 2 := by
  decide

/-- Claim C2 (code_bug): link over an existing name is claimed to reply
EEXIST with no mutation.  The code replies EEXIST but is missing a
return: it still increments the target's hard-link count (1 to 2) and
sends a second, entry reply. -/
theorem C2_link_eexist_still_mutates :
    nlinkAt fsOneFile 2 = some 1 ∧
    childAt fsOneFile 1 "b" = some 2 ∧
    (FuseLink fsOneFile 2 1 "b").replies = [Reply.errReply EEXIST, Reply.entryReply 2] ∧
    nlinkAt (FuseLink fsOneFile 2 1 "b").fs 2 = some 2 := by
  decide

/-- Claim C3 counterexample: inode 2 has zero hard links and is still in
the table, yet flush replies success (error code 0), not ENOENT — the
liveness check is absent from FuseFlush (the inode fetch is commented
out in the source), so the claimed invariant does not extend to all 27
callbacks. -/
theorem C3_flush_ignores_zero_links :
    nlinkAt fsUnlinkedFile 2 = some 0 ∧
    2 < fsUnlinkedFile.inodes.length ∧
    (FuseFlush fsUnlinkedFile 2).replies = [Reply.errReply 0] ∧
    ¬ (FuseFlush fsUnlinkedFile 2).replies = [Reply.errReply ENOENT] := by
  decide

/-- Claim C4 (code_bug): forget that drops the last lookup reference of
a zero-link inode is claimed to credit the free-block counter by the
inode's UsedBlocks and the free-inode counter by one.  The tombstoning
and the DeletedSlots push happen as claimed, but the code calls
`UpdateUsedInodes(-blocks_freed)`: with 5 used blocks the free-inode
counter rises by 5 (50 to 55) instead of 1, and the free-block counter
stays at 100 instead of rising to 105. -/
theorem C4_forget_credits_wrong_counter :
    (inodeAt fsUnlinkedFile 2).map Inode.usedBlocks = some 5 ∧
    (inodeAt fsUnlinkedFile 2).map Inode.nlookup = some 1 ∧
    nlinkAt fsUnlinkedFile 2 = some 0 ∧
    (FuseForget fsUnlinkedFile 2 1).fs.inodes.get? 2 = some none ∧
    (FuseForget fsUnlinkedFile 2 1).fs.deletedInodes = [2] ∧
    (FuseForget fsUnlinkedFile 2 1).fs.bfree = 100 ∧
    (FuseForget fsUnlinkedFile 2 1).fs.ffree = 55 := by
  decide

/-- Claim C5 counterexample: after the successful overwriting rename of
`a` onto `b`, the source name `a` is still present in the parent's
children mapping — bound to inode number 0 — contradicting the claim
that the entry does not remain bound to any inode number. -/
theorem C5_source_name_remains_bound :
    (FuseRename fsTwoFiles 1 "a" 1 "b").replies = [Reply.errReply 0] ∧
    childAt (FuseRename fsTwoFiles 1 "a" 1 "b").fs 1 "a" = some 0 := by
  decide

/-- Claim C9 counterexample: the symlink created by FuseSymlink has mode
`S_IFLNK | 0755` (41453), not the claimed `S_IFLNK | 0777` (41471). -/
theorem C9_symlink_mode_is_0755 :
    (inodeAt (FuseSymlink fsRootOnly "/tmp/x" 1 "s" 7 8).fs 2).map Inode.mode =
      some (S_IFLNK ||| 0o755) ∧
    ¬ S_IFLNK ||| 0o755 = S_IFLNK ||| 0o777 := by
  decide

/-- Claim C6 (code_bug): getattr and setattr on an inode number at or
past the table length are claimed to reply ENOENT exactly once with no
further action.  The ENOENT reply is sent, but the branch is missing a
return: the callback then indexes `Inodes[ino]` out of bounds. -/
theorem C6_getattr_setattr_reply_then_oob (fs : FS) (ino : Nat)
    (attr : SetAttrReq) (toSet : Nat) (h : fs.inodes.length ≤ ino) :
    FuseGetAttr fs ino = { fs := fs, replies := [Reply.errReply ENOENT], oob := true } ∧
    FuseSetAttr fs ino attr toSet =
      { fs := fs, replies := [Reply.errReply ENOENT], oob := true } := by
  have hg : fs.inodes[ino]? = none := list_getElem?_none _ _ h
  constructor
  · simp [FuseGetAttr, hg, h]
  · simp [FuseSetAttr, hg, h]

theorem C6_getattr_setattr_reply_then_oob_witness :
    FuseGetAttr fsRootOnly 2 =
      { fs := fsRootOnly, replies := [Reply.errReply ENOENT], oob := true } ∧
    FuseSetAttr fsRootOnly 2 ⟨0, 0, 0, 0⟩ 0 =
      { fs := fsRootOnly, replies := [Reply.errReply ENOENT], oob := true } :=
  C6_getattr_setattr_reply_then_oob fsRootOnly 2 ⟨0, 0, 0, 0⟩ 0 (by decide)

/-- Claim C7 (confirmed): rmdir of a directory holding any entry beyond
`.` and `..` replies ENOTEMPTY and leaves the state untouched — all
checks in FuseRmdir precede every mutation. -/
theorem C7_rmdir_nonempty_enotempty (fs : FS) (parent : Nat) (name : String)
    (p c : Inode) (ino : Nat)
    (hp : fs.inodes[parent]? = some (some p))
    (hp1 : ¬ p.nlink = 0)
    (hpd : p.kind = InodeKind.directory)
    (hc : childInodeNumberWithName p.children name = some ino)
    (hip : ¬ ino = parent)
    (hi : fs.inodes[ino]? = some (some c))
    (hc1 : ¬ c.nlink = 0)
    (hcd : c.kind = InodeKind.directory)
    (hne : 2 < c.children.length) :
    FuseRmdir fs parent name = errOut fs ENOTEMPTY := by
  have hlt : parent < fs.inodes.length := list_lt_of_getElem?_some hp
  simp [FuseRmdir, Nat.not_le.mpr hlt, hp, hp1, hpd, hc, hip, hi, hc1, hcd, hne]

theorem C7_rmdir_nonempty_enotempty_witness :
    FuseRmdir fsNonEmptyDir 1 "d" = errOut fsNonEmptyDir ENOTEMPTY :=
  C7_rmdir_nonempty_enotempty fsNonEmptyDir 1 "d"
    (mkDirNode 3 [(".", 1), ("..", 1), ("d", 2)])
    (mkDirNode 3 [(".", 2), ("..", 1), ("x", 3)]) 2
    (by decide) (by decide) (by decide) (by decide) (by decide) (by decide)
    (by decide) (by decide) (by decide)

/-- Claim C8 (confirmed): registration reuses the head of the
DeletedSlots queue when non-empty (popping it, the new inode occupying
that slot), otherwise appends a slot numbered with the previous table
length; either way the inode is initialized with the given mode, link
count and owner, and a zero lookup count. -/
theorem C8_register_allocation (fs : FS) (nd : Inode) (mode nlink gid uid : Nat) :
    ((fs.deletedInodes = [] →
        (RegisterInode fs nd mode nlink gid uid).2 = fs.inodes.length ∧
        (RegisterInode fs nd mode nlink gid uid).1.inodes[fs.inodes.length]? =
          some (some (initializeInode nd mode nlink gid uid)) ∧
        (RegisterInode fs nd mode nlink gid uid).1.deletedInodes = []) ∧
     (∀ d rest, fs.deletedInodes = d :: rest →
        (RegisterInode fs nd mode nlink gid uid).2 = d ∧
        (RegisterInode fs nd mode nlink gid uid).1.deletedInodes = rest ∧
        (d < fs.inodes.length →
          (RegisterInode fs nd mode nlink gid uid).1.inodes[d]? =
            some (some (initializeInode nd mode nlink gid uid))))) ∧
    (initializeInode nd mode nlink gid uid).mode = mode ∧
    (initializeInode nd mode nlink gid uid).nlink = nlink ∧
    (initializeInode nd mode nlink gid uid).gid = gid ∧
    (initializeInode nd mode nlink gid uid).uid = uid ∧
    (initializeInode nd mode nlink gid uid).nlookup = 0 := by
  refine ⟨⟨?_, ?_⟩, rfl, rfl, rfl, rfl, rfl⟩
  · intro hq
    simp [RegisterInode, hq, updateUsedBlocks, updateUsedInodes,
      list_getElem?_append_length]
  · intro d rest hq
    refine ⟨?_, ?_, fun hd => ?_⟩
    · simp [RegisterInode, hq, updateUsedBlocks]
    · simp [RegisterInode, hq, updateUsedBlocks]
    · simp only [RegisterInode, hq, updateUsedBlocks]
      exact list_getElem?_set_self _ _ _ hd

theorem C8_register_allocation_witness :
    (RegisterInode fsRootOnly (mkFileNode 0 0 2) (S_IFREG ||| 0o644) 1 5 6).2 =
      fsRootOnly.inodes.length ∧
    (RegisterInode fsRootOnly (mkFileNode 0 0 2) (S_IFREG ||| 0o644) 1 5 6).1.inodes[fsRootOnly.inodes.length]? =
      some (some (initializeInode (mkFileNode 0 0 2) (S_IFREG ||| 0o644) 1 5 6)) ∧
    (RegisterInode fsRootOnly (mkFileNode 0 0 2) (S_IFREG ||| 0o644) 1 5 6).1.deletedInodes = [] :=
  (C8_register_allocation fsRootOnly (mkFileNode 0 0 2) (S_IFREG ||| 0o644) 1 5 6).1.1 rfl

/-- Claim C10 (confirmed): registration by reusing a tombstoned slot
leaves the free-inode counters alone, while appending a fresh slot
debits them by one; in both branches the free-block counters are
debited by the new inode's UsedBlocks, and no other global counter
changes. -/
theorem C10_register_counter_frame (fs : FS) (nd : Inode) (mode nlink gid uid : Nat) :
    ((¬ fs.deletedInodes = [] →
        (RegisterInode fs nd mode nlink gid uid).1.ffree = fs.ffree ∧
        (RegisterInode fs nd mode nlink gid uid).1.favail = fs.favail) ∧
     (fs.deletedInodes = [] →
        (RegisterInode fs nd mode nlink gid uid).1.ffree = fs.ffree - 1 ∧
        (RegisterInode fs nd mode nlink gid uid).1.favail = fs.favail - 1)) ∧
    (RegisterInode fs nd mode nlink gid uid).1.bfree =
      fs.bfree - (nd.usedBlocks : Int) ∧
    (RegisterInode fs nd mode nlink gid uid).1.bavail =
      fs.bavail - (nd.usedBlocks : Int) := by
  cases hq : fs.deletedInodes with
  | nil =>
    simp [RegisterInode, hq, updateUsedBlocks, updateUsedInodes, initializeInode]
  | cons d rest =>
    simp [RegisterInode, hq, updateUsedBlocks, updateUsedInodes, initializeInode]

theorem C10_register_counter_frame_witness :
    (RegisterInode fsRootOnly (mkFileNode 0 0 2) (S_IFREG ||| 0o644) 1 5 6).1.ffree =
      fsRootOnly.ffree - 1 ∧
    (RegisterInode fsRootOnly (mkFileNode 0 0 2) (S_IFREG ||| 0o644) 1 5 6).1.favail =
      fsRootOnly.favail - 1 :=
  (C10_register_counter_frame fsRootOnly (mkFileNode 0 0 2) (S_IFREG ||| 0o644) 1 5 6).1.2 rfl

/-- Claim C3 amended (corrected): for an in-table inode with zero hard
links, the callbacks getattr, setattr, open and release reply ENOENT
and do not mutate the state, and Resolve-reachability holds exactly
when the link count is at least one; but flush and fsync omit the
liveness check and reply success for any in-range inode number, and
getlk sends no reply at all, so the invariant does not hold for all 27
callbacks — in particular not for flush, fsync and getlk, three of the
five the claim names. -/
theorem C3_zero_link_visibility (fs : FS) (ino : Nat) (nd : Inode)
    (attr : SetAttrReq) (toSet : Nat)
    (h : fs.inodes[ino]? = some (some nd)) (h0 : nd.nlink = 0) :
    FuseOpen fs ino = errOut fs ENOENT ∧
    FuseRelease fs ino = errOut fs ENOENT ∧
    FuseGetAttr fs ino = { fs := fs, replies := [Reply.errReply ENOENT], oob := false } ∧
    FuseSetAttr fs ino attr toSet =
      { fs := fs, replies := [Reply.errReply ENOENT], oob := false } ∧
    FuseFlush fs ino = errOut fs 0 ∧
    FuseFsync fs ino = errOut fs 0 ∧
    FuseGetLock fs ino = { fs := fs, replies := [], oob := false } ∧
    resolveLive fs ino = none ∧
    (∀ j, (resolveLive fs j).isSome = true ↔
        ∃ m, fs.inodes[j]? = some (some m) ∧ 1 ≤ m.nlink) := by
  have hlt : ino < fs.inodes.length := list_lt_of_getElem?_some h
  have hnle : ¬ fs.inodes.length ≤ ino := Nat.not_le.mpr hlt
  refine ⟨?_, ?_, ?_, ?_, ?_, ?_, ?_, ?_, ?_⟩
  · simp [FuseOpen, hnle, h, h0]
  · simp [FuseRelease, hnle, h, h0]
  · simp [FuseGetAttr, hnle, h, h0]
  · simp [FuseSetAttr, hnle, h, h0]
  · simp [FuseFlush, hnle]
  · simp [FuseFsync, hnle]
  · simp [FuseGetLock, hnle]
  · simp [resolveLive, List.get?_eq_getElem?, h, h0]
  · intro j
    unfold resolveLive
    rw [List.get?_eq_getElem?]
    cases hj : fs.inodes[j]? with
    | none => simp
    | some o =>
      cases o with
      | none => simp
      | some m =>
        by_cases hm : 1 ≤ m.nlink
        · simp [hm]
        · simp [hm]

theorem C3_zero_link_visibility_witness :
    FuseOpen fsUnlinkedFile 2 = errOut fsUnlinkedFile ENOENT ∧
    FuseFlush fsUnlinkedFile 2 = errOut fsUnlinkedFile 0 :=
  ⟨(C3_zero_link_visibility fsUnlinkedFile 2 (mkFileNode 0 1 5) ⟨0, 0, 0, 0⟩ 0
      (by decide) rfl).1,
   (C3_zero_link_visibility fsUnlinkedFile 2 (mkFileNode 0 1 5) ⟨0, 0, 0, 0⟩ 0
      (by decide) rfl).2.2.2.2.1⟩

/-- Claim C9 amended (corrected): a successful symlink creates a SymLink
inode with mode `0755 | S_IFLNK` (the source passes 0755, not the
claimed 0777), a hard-link count of 1, and owner uid/gid taken from the
requesting caller's credentials.  Stated for a state with an empty
DeletedSlots queue, where the new inode number is the table length. -/
theorem C9_symlink_attrs (fs : FS) (link : String) (parent : Nat) (name : String)
    (ctxUid ctxGid : Nat) (p : Inode)
    (hq : fs.deletedInodes = [])
    (hp : fs.inodes[parent]? = some (some p))
    (hp1 : ¬ p.nlink = 0)
    (hpd : p.kind = InodeKind.directory) :
    (FuseSymlink fs link parent name ctxUid ctxGid).replies =
      [Reply.entryReply fs.inodes.length] ∧
    (inodeAt (FuseSymlink fs link parent name ctxUid ctxGid).fs
        fs.inodes.length).map Inode.mode = some (S_IFLNK ||| 0o755) ∧
    (inodeAt (FuseSymlink fs link parent name ctxUid ctxGid).fs
        fs.inodes.length).map Inode.nlink = some 1 ∧
    (inodeAt (FuseSymlink fs link parent name ctxUid ctxGid).fs
        fs.inodes.length).map Inode.uid = some ctxUid ∧
    (inodeAt (FuseSymlink fs link parent name ctxUid ctxGid).fs
        fs.inodes.length).map Inode.gid = some ctxGid := by
  have hlt : parent < fs.inodes.length := list_lt_of_getElem?_some hp
  have hnle : ¬ fs.inodes.length ≤ parent := Nat.not_le.mpr hlt
  have hpl : ¬ parent = fs.inodes.length := Nat.ne_of_lt hlt
  simp [FuseSymlink, hnle, hp, hp1, hpd, RegisterInode, hq, inodeAt,
    List.get?_eq_getElem?, modifyInode_getElem?, hpl,
    updateUsedBlocks, updateUsedInodes, list_getElem?_append_length,
    initializeInode, newSymLink]

theorem C9_symlink_attrs_witness :
    (FuseSymlink fsRootOnly "/tmp/x" 1 "s" 7 8).replies =
      [Reply.entryReply fsRootOnly.inodes.length] ∧
    (inodeAt (FuseSymlink fsRootOnly "/tmp/x" 1 "s" 7 8).fs
        fsRootOnly.inodes.length).map Inode.mode = some (S_IFLNK ||| 0o755) :=
  ⟨(C9_symlink_attrs fsRootOnly "/tmp/x" 1 "s" 7 8
      (mkDirNode 3 [(".", 1), ("..", 1)]) rfl (by decide) (by decide) (by decide)).1,
   (C9_symlink_attrs fsRootOnly "/tmp/x" 1 "s" 7 8
      (mkDirNode 3 [(".", 1), ("..", 1)]) rfl (by decide) (by decide) (by decide)).2.1⟩

/-- The success path of FuseRename when no child named `newname` exists
in the new parent: the new name is bound, the old name is rebound to 0,
and the success reply is sent. -/
theorem FuseRename_success_fresh (fs : FS) (parent newparent : Nat)
    (name newname : String) (p np : Inode) (ino : Nat)
    (hp : fs.inodes[parent]? = some (some p)) (hp1 : ¬ p.nlink = 0)
    (hpd : p.kind = InodeKind.directory)
    (hc : childInodeNumberWithName p.children name = some ino)
    (hnp : fs.inodes[newparent]? = some (some np)) (hnp1 : ¬ np.nlink = 0)
    (hnpd : np.kind = InodeKind.directory)
    (hex : childInodeNumberWithName np.children newname = none) :
    FuseRename fs parent name newparent newname =
      { fs := modifyInode (modifyInode fs newparent
            (fun nd => { nd with children := updateChild nd.children newname ino }))
          parent (fun nd => { nd with children := updateChild nd.children name 0 }),
        replies := [Reply.errReply 0], oob := false } := by
  simp [FuseRename, Nat.not_le.mpr (list_lt_of_getElem?_some hp), hp, hp1, hpd, hc,
    Nat.not_le.mpr (list_lt_of_getElem?_some hnp), hnp, hnp1, hnpd, hex]

/-- The success path of FuseRename when `newname` already exists in the
new parent: additionally, the source parent (not the overwritten target)
loses a hard link first. -/
theorem FuseRename_success_over (fs : FS) (parent newparent : Nat)
    (name newname : String) (p np : Inode) (ino e : Nat)
    (hp : fs.inodes[parent]? = some (some p)) (hp1 : ¬ p.nlink = 0)
    (hpd : p.kind = InodeKind.directory)
    (hc : childInodeNumberWithName p.children name = some ino)
    (hnp : fs.inodes[newparent]? = some (some np)) (hnp1 : ¬ np.nlink = 0)
    (hnpd : np.kind = InodeKind.directory)
    (hex : childInodeNumberWithName np.children newname = some e) :
    FuseRename fs parent name newparent newname =
      { fs := modifyInode (modifyInode
            (modifyInode fs parent (fun nd => { nd with nlink := nd.nlink - 1 }))
            newparent (fun nd => { nd with children := updateChild nd.children newname ino }))
          parent (fun nd => { nd with children := updateChild nd.children name 0 }),
        replies := [Reply.errReply 0], oob := false } := by
  simp [FuseRename, Nat.not_le.mpr (list_lt_of_getElem?_some hp), hp, hp1, hpd, hc,
    Nat.not_le.mpr (list_lt_of_getElem?_some hnp), hnp, hnp1, hnpd, hex]

/-- After the two closing UpdateChild steps of a successful rename, the
source name in the source parent is bound to 0, and looking it up
replies ENOENT via the zero-link inode at slot 0. -/
theorem rename_post_facts (fs0 : FS) (parent newparent : Nat) (ino : Nat)
    (name newname : String) (q0 z : Inode)
    (hq : fs0.inodes[parent]? = some (some q0))
    (hkind : q0.kind = InodeKind.directory)
    (hz : fs0.inodes[0]? = some (some z)) (hz0 : z.nlink = 0)
    (hp0 : ¬ parent = 0) (hnp0 : ¬ newparent = 0) :
    childAt (modifyInode (modifyInode fs0 newparent
        (fun nd => { nd with children := updateChild nd.children newname ino }))
      parent (fun nd => { nd with children := updateChild nd.children name 0 }))
      parent name = some 0 ∧
    (FuseLookup (modifyInode (modifyInode fs0 newparent
        (fun nd => { nd with children := updateChild nd.children newname ino }))
      parent (fun nd => { nd with children := updateChild nd.children name 0 }))
      parent name).replies = [Reply.errReply ENOENT] := by
  obtain ⟨r, hr, hrk⟩ :
      ∃ r, (modifyInode fs0 newparent
          (fun nd => { nd with children := updateChild nd.children newname ino })).inodes[parent]? =
        some (some r) ∧ r.kind = q0.kind := by
    by_cases hpp : newparent = parent
    · subst hpp
      exact ⟨_, modifyInode_slot_self _ _ _ _ hq, rfl⟩
    · exact ⟨q0, by rw [modifyInode_slot_other _ _ _ _ hpp]; exact hq, rfl⟩
  have h3 : (modifyInode (modifyInode fs0 newparent
        (fun nd => { nd with children := updateChild nd.children newname ino }))
      parent (fun nd => { nd with children := updateChild nd.children name 0 })).inodes[parent]? =
      some (some { r with children := updateChild r.children name 0 }) :=
    modifyInode_slot_self _ _ _ _ hr
  have hzst : (modifyInode (modifyInode fs0 newparent
        (fun nd => { nd with children := updateChild nd.children newname ino }))
      parent (fun nd => { nd with children := updateChild nd.children name 0 })).inodes[0]? =
      some (some z) := by
    rw [modifyInode_slot_other _ _ _ _ hp0, modifyInode_slot_other _ _ _ _ hnp0]
    exact hz
  have hplt : parent < fs0.inodes.length := list_lt_of_getElem?_some hq
  constructor
  · simp [childAt, inodeAt, List.get?_eq_getElem?, h3,
      childInodeNumberWithName_updateChild]
  · simp [FuseLookup, modifyInode_length, Nat.not_le.mpr hplt, List.get?_eq_getElem?,
      h3, hrk, hkind, childInodeNumberWithName_updateChild, hzst, hz0, errOut]

/-- Claim C5 amended (corrected): after a successful rename the source
name is not removed from the source parent's children mapping — it
remains present, rebound to the reserved inode number 0 — but a
subsequent lookup of the name still replies ENOENT, because inode 0 (the
SpecialInode registered with zero links) fails the liveness check. -/
theorem C5_rename_rebinds_source_name (fs : FS) (parent newparent : Nat)
    (name newname : String) (p np z : Inode) (ino : Nat)
    (hp : fs.inodes[parent]? = some (some p)) (hp1 : ¬ p.nlink = 0)
    (hpd : p.kind = InodeKind.directory)
    (hc : childInodeNumberWithName p.children name = some ino)
    (hnp : fs.inodes[newparent]? = some (some np)) (hnp1 : ¬ np.nlink = 0)
    (hnpd : np.kind = InodeKind.directory)
    (hz : fs.inodes[0]? = some (some z)) (hz0 : z.nlink = 0) :
    (FuseRename fs parent name newparent newname).replies = [Reply.errReply 0] ∧
    childAt (FuseRename fs parent name newparent newname).fs parent name = some 0 ∧
    (FuseLookup (FuseRename fs parent name newparent newname).fs parent name).replies =
      [Reply.errReply ENOENT] := by
  have hparent0 : ¬ parent = 0 := by
    intro he
    rw [he, hz] at hp
    simp only [Option.some.injEq] at hp
    exact hp1 (hp ▸ hz0)
  have hnewparent0 : ¬ newparent = 0 := by
    intro he
    rw [he, hz] at hnp
    simp only [Option.some.injEq] at hnp
    exact hnp1 (hnp ▸ hz0)
  cases hex : childInodeNumberWithName np.children newname with
  | none =>
    rw [FuseRename_success_fresh fs parent newparent name newname p np ino
      hp hp1 hpd hc hnp hnp1 hnpd hex]
    have hfacts := rename_post_facts fs parent newparent ino name newname p z
      hp hpd hz hz0 hparent0 hnewparent0
    exact ⟨rfl, hfacts.1, hfacts.2⟩
  | some e =>
    rw [FuseRename_success_over fs parent newparent name newname p np ino e
      hp hp1 hpd hc hnp hnp1 hnpd hex]
    have hq1 : (modifyInode fs parent
        (fun nd => { nd with nlink := nd.nlink - 1 })).inodes[parent]? =
        some (some { p with nlink := p.nlink - 1 }) :=
      modifyInode_slot_self _ _ _ _ hp
    have hz1 : (modifyInode fs parent
        (fun nd => { nd with nlink := nd.nlink - 1 })).inodes[0]? =
        some (some z) := by
      rw [modifyInode_slot_other _ _ _ _ hparent0]
      exact hz
    have hfacts := rename_post_facts
      (modifyInode fs parent (fun nd => { nd with nlink := nd.nlink - 1 }))
      parent newparent ino name newname { p with nlink := p.nlink - 1 } z
      hq1 hpd hz1 hz0 hparent0 hnewparent0
    exact ⟨rfl, hfacts.1, hfacts.2⟩

theorem C5_rename_rebinds_source_name_witness :
    childAt (FuseRename fsTwoFiles 1 "a" 1 "b").fs 1 "a" = some 0 ∧
    (FuseLookup (FuseRename fsTwoFiles 1 "a" 1 "b").fs 1 "a").replies =
      [Reply.errReply ENOENT] :=
  (C5_rename_rebinds_source_name fsTwoFiles 1 1 "a" "b"
    (mkDirNode 3 [(".", 1), ("..", 1), ("a", 2), ("b", 3)])
    (mkDirNode 3 [(".", 1), ("..", 1), ("a", 2), ("b", 3)])
    specialInode0 2
    (by decide) (by decide) (by decide) (by decide)
    (by decide) (by decide) (by decide) (by decide) (by decide)).2

end RamFs
